import Mathlib

/-!
Verification of the biometric exam-attendance system (Express/Mongo server
plus browser client) against its specification.

Shallow embedding conventions:
- JavaScript numbers are modelled by the rationals `Rat`; NaN is modelled by
  `Option Rat` with `none` standing for NaN where it can arise.
- JavaScript strings are Lean `String`; a missing or empty request field is
  modelled by the empty string, since both are falsy under the only test the
  server applies to them (the `!field` guard).
- The MongoDB store is a list of documents in insertion order; `findOne` is
  `List.find?` and `save` appends.
- Dates: the server computes the day key with `new Date().toLocaleDateString()`
  once per request; we model the resulting day string as an explicit `today`
  parameter, equal across requests that happen on the same calendar day.
- Timestamps (`checkInTime`, `registeredAt`, mongoose `timestamps`) are never
  read by the logic the claims concern and are omitted from the records.
-/

/-- An attendance document, after the fields the check-in handler writes
(`studentId`, `name`, `course`, `date`, `confidence`); `checkInTime` is a
write-only timestamp and is omitted. -/
structure AttendanceRecord where
  studentId : String
  name : String
  course : String
  date : String
  confidence : Option Rat
deriving DecidableEq, Repr

/-- Body of a `POST /api/attendance/checkin` request. `confidence` is
optional in the schema; absent is `none`. -/
structure CheckinReq where
  studentId : String
  name : String
  course : String
  confidence : Option Rat
deriving DecidableEq, Repr

/-- The three response shapes the check-in handler can produce (apart from a
500 on storage failure, outside this model): 400 when identity info is
missing, 409 carrying the existing document, 201 carrying the new one. -/
inductive CheckinResult where
  | badRequest : CheckinResult
  | alreadyCheckedIn : AttendanceRecord → CheckinResult
  | created : AttendanceRecord → CheckinResult
deriving DecidableEq, Repr

/-- `String.prototype.toUpperCase()` (and the mongoose `uppercase: true`
transform), modelled character by character; kernel-reducible, unlike
`String.toUpper` whose byte-position recursion does not evaluate under
`decide`. -/
def toUpperCase (s : String) : String :=
  ⟨s.data.map Char.toUpper⟩

/-- `String.prototype.trim()` (and the mongoose `trim: true` transform):
drop whitespace from both ends. -/
def jsTrim (s : String) : String :=
  ⟨((s.data.dropWhile Char.isWhitespace).reverse.dropWhile Char.isWhitespace).reverse⟩

/-- `confidence || null` on a JSON number: `0` is falsy and becomes null,
any other number is kept, absent stays null. -/
def jsOrNull (c : Option Rat) : Option Rat :=
  match c with
  | some v => if v = 0 then none else some v
  | none => none

/-- How many ledger documents carry the given `(studentId, date)` pair. -/
def countPair (ledger : List AttendanceRecord) (sid date : String) : Nat :=
  (ledger.filter (fun r => r.studentId == sid && r.date == date)).length

/-- The attendance document `new Attendance({...})` builds from a check-in
request on a given day. -/
def mkAttendance (req : CheckinReq) (today : String) : AttendanceRecord :=
  { studentId := toUpperCase req.studentId
    name := jsTrim req.name
    course := jsTrim req.course
    date := today
    confidence := jsOrNull req.confidence }

/-- `POST /api/attendance/checkin`: validate the identity fields, look for an
existing document with the uppercased id and today, and either return it
with a 409 or append a new document and return it with a 201. The student
directory is never consulted. -/
def checkin (ledger : List AttendanceRecord) (today : String) (req : CheckinReq) :
    CheckinResult × List AttendanceRecord :=
  if req.studentId = "" ∨ req.name = "" ∨ req.course = "" then
    (.badRequest, ledger)
  else
    match ledger.find? (fun r => r.studentId == toUpperCase req.studentId && r.date == today) with
    | some r => (.alreadyCheckedIn r, ledger)
    | none =>
      (.created (mkAttendance req today), ledger ++ [mkAttendance req today])

/-- A student document; `registeredAt` and the mongoose timestamps are
write-only and omitted. The schema uppercases and trims `studentId` on save;
the register handler already stores the uppercased, trimmed values. -/
structure Student where
  studentId : String
  name : String
  course : String
  faceDescriptor : List Rat
  isActive : Bool
deriving DecidableEq, Repr

/-- Body of a `POST /api/students/register` request; `faceDescriptor` is
`none` when the field is absent from the JSON body. -/
structure RegisterReq where
  studentId : String
  name : String
  course : String
  faceDescriptor : Option (List Rat)
deriving DecidableEq, Repr

/-- Response shapes of the register handler: 400 on missing fields or a
descriptor that is not a 128-array, 409 on an existing id, 201 with the
stored document. -/
inductive RegisterResult where
  | badRequest : RegisterResult
  | conflict : RegisterResult
  | created : Student → RegisterResult
deriving DecidableEq, Repr

/-- `POST /api/students/register`: reject missing fields, then a descriptor
whose length is not 128, then an already-present id (the `findOne` filter is
`{ studentId: id.toUpperCase() }` with no `isActive` condition), else store
the new student with `isActive` defaulted to true. -/
def register (store : List Student) (req : RegisterReq) :
    RegisterResult × List Student :=
  if req.studentId = "" ∨ req.name = "" ∨ req.course = "" ∨ req.faceDescriptor = none then
    (.badRequest, store)
  else
    let fd := req.faceDescriptor.getD []
    if fd.length ≠ 128 then
      (.badRequest, store)
    else
      match store.find? (fun s => s.studentId == toUpperCase req.studentId) with
      | some _ => (.conflict, store)
      | none =>
        let st : Student :=
          { studentId := toUpperCase req.studentId
            name := jsTrim req.name
            course := jsTrim req.course
            faceDescriptor := fd
            isActive := true }
        (.created st, store ++ [st])

/-!
Client-side matcher (`app.js`). An entry of `GET /api/students/descriptors`
is `{ id, name, course, faceData }`; the verify handler folds over these,
starting from `bestDistance = 0.6, bestMatch = null`, updating whenever
`euclideanDistance(probe, faceData) < bestDistance`.

`euclideanDistance(a, b)` is `Math.sqrt` of
`a.reduce((sum, val, i) => sum + Math.pow(val - b[i], 2), 0)`: the reduce
walks the indices of `a`; when `b[i]` is out of range the JS value is
`undefined`, the sum becomes NaN and stays NaN, and `Math.sqrt(NaN) = NaN`,
which compares false against any bound. We model the SQUARED sum (NaN as
`none`) and compare it against squared bounds: since every distance and
bound in the fold is nonnegative and `Math.sqrt` is strictly monotone on
nonnegative reals, `sqrt s < sqrt b` iff `s < b`, so the fold on squared
values takes exactly the branches the source takes on square roots; the
theorems restate the results through `Real.sqrt`.
-/

/-- One entry of the descriptor list the client matches against. -/
structure StudentDescriptor where
  id : String
  name : String
  course : String
  faceData : List Rat
deriving DecidableEq, Repr

/-- The squared-sum part of `euclideanDistance`: the reduce over the probe
indices, `none` for NaN (some probe index is past the end of `b`). -/
def euclidean2 : List Rat → List Rat → Option Rat
  | [], _ => some 0
  | _ :: _, [] => none
  | x :: xs, y :: ys => (euclidean2 xs ys).map (fun s => (x - y) ^ 2 + s)

/-- The specification formula Σ (probe i − enrolled i)², written over the
aligned prefix of the two vectors. -/
def d2q : List Rat → List Rat → Rat
  | x :: xs, y :: ys => (x - y) ^ 2 + d2q xs ys
  | _, _ => 0

/-- One iteration of the verify fold, on squared distances: update the best
pair when the candidate distance beats the bound; a NaN distance (`none`)
compares false and leaves the state alone, as in the source. -/
def matcherStep (p : List Rat) (st : Option StudentDescriptor × Rat)
    (s : StudentDescriptor) : Option StudentDescriptor × Rat :=
  match euclidean2 p s.faceData with
  | some d2 => if d2 < st.2 then (some s, d2) else st
  | none => st

/-- The verify handler decision: fold from `(null, 0.6)` — squared bound
`9/25` — and report the best match with its squared distance, or `none`
when `bestMatch` stayed null. -/
def matcherRun (p : List Rat) (l : List StudentDescriptor) :
    Option (StudentDescriptor × Rat) :=
  let r := l.foldl (matcherStep p) (none, 9 / 25)
  match r.1 with
  | none => none
  | some s => some (s, r.2)

/-- `Number.prototype.toFixed(1)` on a nonnegative value: round to the
nearest tenth, ties upward (ECMA-262 picks the larger candidate). The
client only applies it to confidences, which are positive at any accepted
distance. -/
def toFixed1 (x : Rat) : Rat :=
  (⌊x * 10 + 1 / 2⌋ : Int) / 10

/-- The confidence the client reports for a match at distance `d`:
`((1 - bestDistance) * 100).toFixed(1)`. -/
def confidence (d : Rat) : Rat :=
  toFixed1 ((1 - d) * 100)

/-!
Client-side registration (`app.js`): `avgDescriptor` maps over the indices
of the first captured sample and averages the corresponding components of
all samples; a sample shorter than the first contributes `undefined`,
turning that component into NaN. The register click handler rejects empty
form fields, then fewer than 3 samples, and otherwise submits the averaged
descriptor — it never compares sample lengths.
-/

/-- `capturedSamples.reduce((acc, sample) => acc + sample[i], 0)`:
`none` (NaN) as soon as some sample lacks index `i`. -/
def sumAt (samples : List (List Rat)) (i : Nat) : Option Rat :=
  samples.foldl (fun acc s => acc.bind fun a => (s.get? i).map fun v => a + v) (some 0)

/-- `capturedSamples[0].map((_, i) => sum / capturedSamples.length)`: one
output component per component of the first sample. -/
def avgDescriptor (samples : List (List Rat)) : List (Option Rat) :=
  (List.range (samples.headD []).length).map
    fun i => (sumAt samples i).map fun s => s / samples.length

/-- Outcomes of the register click handler: the two client-side rejections
(empty form fields, fewer than 3 samples) and submission of the averaged
descriptor to the server. -/
inductive RegisterClickOutcome where
  | missingFields : RegisterClickOutcome
  | missingSamples : RegisterClickOutcome
  | submitted : List (Option Rat) → RegisterClickOutcome
deriving DecidableEq, Repr

/-- The register click handler up to the network call. -/
def registerClick (id name course : String) (samples : List (List Rat)) :
    RegisterClickOutcome :=
  if id = "" ∨ name = "" ∨ course = "" then .missingFields
  else if samples.length < 3 then .missingSamples
  else .submitted (avgDescriptor samples)

/-!
Storage-level model of MongoDB index enforcement for the attendance
collection. The schema declares exactly one secondary index,
`attendanceSchema.index({ studentId: 1, date: 1 })`, with no options object,
so mongoose creates it NON-unique (the comment above it in the source says
it is for query performance). MongoDB rejects an insert precisely when some
index declared unique already holds a document with the same key values.
-/

/-- A declared index: the key values it extracts from a document, and
whether it was declared unique. -/
structure IndexSpec where
  key : AttendanceRecord → List String
  unique : Bool

/-- The indexes declared on the attendance collection: the single
`{ studentId: 1, date: 1 }` index, non-unique. -/
def attendanceIndexes : List IndexSpec :=
  [{ key := fun r => [r.studentId, r.date], unique := false }]

/-- A raw storage insert: fail with a duplicate-key error when a unique
index already holds the new document key, else append. This is what a
write that has already passed (or raced past) the application-level check
meets at the storage layer. -/
def storageInsert (idxs : List IndexSpec) (docs : List AttendanceRecord)
    (d : AttendanceRecord) : Except Unit (List AttendanceRecord) :=
  if idxs.any (fun ix => ix.unique && docs.any (fun e => ix.key e == ix.key d)) then
    .error ()
  else
    .ok (docs ++ [d])

/-! Helper lemmas. -/

/-- The Boolean pair predicate the check-in handler filters and finds by. -/
def pairMatch (sid today : String) (r : AttendanceRecord) : Bool :=
  r.studentId == sid && r.date == today

lemma pairMatch_iff (sid today : String) (r : AttendanceRecord) :
    pairMatch sid today r = true ↔ r.studentId = sid ∧ r.date = today := by
  simp [pairMatch]

lemma countPair_eq_zero_iff (ledger : List AttendanceRecord) (sid today : String) :
    countPair ledger sid today = 0 ↔
      ∀ r ∈ ledger, ¬(r.studentId = sid ∧ r.date = today) := by
  unfold countPair
  rw [List.length_eq_zero, List.filter_eq_nil_iff]
  constructor
  · intro h r hr hp
    exact h r hr (by simpa [pairMatch_iff] using hp)
  · intro h r hr hp
    exact h r hr (by simpa using hp)

lemma find?_pair_eq_none (ledger : List AttendanceRecord) (sid today : String)
    (h : countPair ledger sid today = 0) :
    ledger.find? (fun r => r.studentId == sid && r.date == today) = none := by
  rw [List.find?_eq_none]
  intro r hr hp
  exact (countPair_eq_zero_iff ledger sid today).mp h r hr (by simpa using hp)

lemma find?_pair_eq_some (ledger : List AttendanceRecord) (sid today : String)
    (h : ∃ r ∈ ledger, r.studentId = sid ∧ r.date = today) :
    ∃ r2, ledger.find? (fun r => r.studentId == sid && r.date == today) = some r2 ∧
      r2 ∈ ledger ∧ r2.studentId = sid ∧ r2.date = today := by
  obtain ⟨r, hr, hp⟩ := h
  cases hfind : ledger.find? (fun r => r.studentId == sid && r.date == today) with
  | none =>
    exact absurd hp (by
      have := List.find?_eq_none.mp hfind r hr
      simpa using this)
  | some r2 =>
    refine ⟨r2, rfl, List.mem_of_find?_eq_some hfind, ?_⟩
    have := List.find?_some hfind
    simpa using this

lemma d2q_nonneg (a : List Rat) : ∀ b : List Rat, 0 ≤ d2q a b := by
  induction a with
  | nil => intro b; simp [d2q]
  | cons x xs ih =>
    intro b
    cases b with
    | nil => simp [d2q]
    | cons y ys => exact add_nonneg (sq_nonneg _) (ih ys)

lemma euclidean2_eq_some (a : List Rat) : ∀ b : List Rat, a.length ≤ b.length →
    euclidean2 a b = some (d2q a b) := by
  induction a with
  | nil => intro b _; simp [euclidean2, d2q]
  | cons x xs ih =>
    intro b h
    cases b with
    | nil => simp at h
    | cons y ys =>
      rw [euclidean2, ih ys (by simpa using h)]
      rfl

lemma euclidean2_eq_none (a : List Rat) : ∀ b : List Rat, b.length < a.length →
    euclidean2 a b = none := by
  induction a with
  | nil => intro b h; simp at h
  | cons x xs ih =>
    intro b h
    cases b with
    | nil => simp [euclidean2]
    | cons y ys =>
      rw [euclidean2, ih ys (by simpa using h)]
      rfl

/-- Invariant of the verify fold: the bound never grows, it ends below
every processed squared distance, and the state is either untouched or
holds a processed descriptor whose exact squared distance is the bound and
beats the initial bound. -/
lemma matcherFold_spec (p : List Rat) :
    ∀ (l : List StudentDescriptor) (init : Option StudentDescriptor × Rat),
      (∀ s ∈ l, p.length ≤ s.faceData.length) →
      (l.foldl (matcherStep p) init).2 ≤ init.2 ∧
      (∀ t ∈ l, (l.foldl (matcherStep p) init).2 ≤ d2q p t.faceData) ∧
      (l.foldl (matcherStep p) init = init ∨
        ∃ s, s ∈ l ∧ (l.foldl (matcherStep p) init).1 = some s ∧
          (l.foldl (matcherStep p) init).2 = d2q p s.faceData ∧
          (l.foldl (matcherStep p) init).2 < init.2) := by
  intro l
  induction l with
  | nil => intro init _; simp
  | cons t rest ih =>
    intro init hlen
    have ht : p.length ≤ t.faceData.length := hlen t (by simp)
    have hrest : ∀ s ∈ rest, p.length ≤ s.faceData.length := fun s hs =>
      hlen s (by simp [hs])
    have he : euclidean2 p t.faceData = some (d2q p t.faceData) :=
      euclidean2_eq_some p t.faceData ht
    have hstep : (t :: rest).foldl (matcherStep p) init =
        rest.foldl (matcherStep p) (matcherStep p init t) := by
      simp [List.foldl_cons]
    by_cases hd : d2q p t.faceData < init.2
    · have hs1 : matcherStep p init t = (some t, d2q p t.faceData) := by
        simp [matcherStep, he, hd]
      obtain ⟨h1, h2, h3⟩ := ih (matcherStep p init t) hrest
      rw [hs1] at h1 h2 h3
      rw [hstep, hs1]
      refine ⟨le_of_lt (lt_of_le_of_lt h1 hd), ?_, ?_⟩
      · intro u hu
        rcases List.mem_cons.mp hu with hu | hu
        · subst hu; exact h1
        · exact h2 u hu
      · rcases h3 with h3 | ⟨s, hsmem, hfst, hsnd, hlt⟩
        · refine Or.inr ⟨t, by simp, ?_, ?_, ?_⟩
          · rw [h3]
          · rw [h3]
          · rw [h3]; exact hd
        · exact Or.inr ⟨s, by simp [hsmem], hfst, hsnd, lt_trans hlt hd⟩
    · have hs1 : matcherStep p init t = init := by
        simp [matcherStep, he, hd]
      obtain ⟨h1, h2, h3⟩ := ih init hrest
      rw [hstep, hs1]
      refine ⟨h1, ?_, ?_⟩
      · intro u hu
        rcases List.mem_cons.mp hu with hu | hu
        · subst hu; exact le_trans h1 (not_lt.mp hd)
        · exact h2 u hu
      · rcases h3 with h3 | ⟨s, hsmem, hfst, hsnd, hlt⟩
        · exact Or.inl h3
        · exact Or.inr ⟨s, by simp [hsmem], hfst, hsnd, hlt⟩

/-! Claim theorems. -/

/-- C1: Admission Gate idempotence. Starting from a ledger with no record
for `(identity, today)`, the first well-formed check-in call persists one
record, and any subsequent well-formed call for the same identity and day
returns `alreadyCheckedIn` carrying the existing record, leaves the ledger
unchanged, and the ledger count for the pair stays 1; more generally any
call against a ledger already holding a record for the pair returns 409
with such a record and does not change the ledger. -/
theorem checkin_idempotent (ledger : List AttendanceRecord) (today : String)
    (req req2 : CheckinReq)
    (h1 : req.studentId ≠ "" ∧ req.name ≠ "" ∧ req.course ≠ "")
    (h2 : req2.studentId ≠ "" ∧ req2.name ≠ "" ∧ req2.course ≠ "")
    (hsame : toUpperCase req2.studentId = toUpperCase req.studentId)
    (h0 : countPair ledger (toUpperCase req.studentId) today = 0) :
    checkin ledger today req =
      (.created (mkAttendance req today), ledger ++ [mkAttendance req today]) ∧
    (mkAttendance req today).studentId = toUpperCase req.studentId ∧
    (mkAttendance req today).date = today ∧
    countPair (ledger ++ [mkAttendance req today]) (toUpperCase req.studentId) today = 1 ∧
    checkin (ledger ++ [mkAttendance req today]) today req2 =
      (.alreadyCheckedIn (mkAttendance req today), ledger ++ [mkAttendance req today]) ∧
    (∀ l2 : List AttendanceRecord,
      (∃ r ∈ l2, r.studentId = toUpperCase req.studentId ∧ r.date = today) →
      ∃ r2, checkin l2 today req2 = (.alreadyCheckedIn r2, l2) ∧ r2 ∈ l2 ∧
        r2.studentId = toUpperCase req.studentId ∧ r2.date = today) := by
  obtain ⟨ha, hb, hc⟩ := h1
  have hif : ¬(req.studentId = "" ∨ req.name = "" ∨ req.course = "") := by
    simp [ha, hb, hc]
  have hif2 : ¬(req2.studentId = "" ∨ req2.name = "" ∨ req2.course = "") := by
    simp [h2.1, h2.2.1, h2.2.2]
  have hfind := find?_pair_eq_none ledger (toUpperCase req.studentId) today h0
  refine ⟨?_, rfl, rfl, ?_, ?_, ?_⟩
  · simp [checkin, hif, hfind]
  · unfold countPair
    rw [List.filter_append]
    have hnil : ledger.filter
        (fun r => r.studentId == toUpperCase req.studentId && r.date == today) = [] := by
      rw [List.filter_eq_nil_iff]
      intro r hr hp
      exact (countPair_eq_zero_iff ledger (toUpperCase req.studentId) today).mp h0 r hr
        (by simpa using hp)
    rw [hnil]
    simp [mkAttendance]
  · have hfind2 :
        (ledger ++ [mkAttendance req today]).find?
          (fun r => r.studentId == toUpperCase req2.studentId && r.date == today) =
          some (mkAttendance req today) := by
      rw [hsame, List.find?_append, hfind]
      simp [mkAttendance]
    simp [checkin, hif2, hfind2]
  · intro l2 hl2
    obtain ⟨r2, hfind2, hmem, hsid, hdate⟩ :=
      find?_pair_eq_some l2 (toUpperCase req.studentId) today hl2
    refine ⟨r2, ?_, hmem, hsid, hdate⟩
    have hfind2b : l2.find?
        (fun r => r.studentId == toUpperCase req2.studentId && r.date == today) =
        some r2 := by rw [hsame]; exact hfind2
    simp [checkin, hif2, hfind2b]

lemma matcherRun_fst_none (p : List Rat) (l : List StudentDescriptor)
    (h : (l.foldl (matcherStep p) (none, 9 / 25)).1 = none) :
    matcherRun p l = none := by
  unfold matcherRun
  simp [h]

lemma matcherRun_fst_some (p : List Rat) (l : List StudentDescriptor)
    (s1 : StudentDescriptor)
    (h : (l.foldl (matcherStep p) (none, 9 / 25)).1 = some s1) :
    matcherRun p l = some (s1, (l.foldl (matcherStep p) (none, 9 / 25)).2) := by
  unfold matcherRun
  simp [h]

/-- C2: Matcher decision. With every enrolled vector of the probe's length,
a reported match is an enrolled identity at the globally minimum Euclidean
distance, that distance is strictly below 0.6, and the reported squared
distance is the distance formula value; `none` is reported exactly when
every enrolled vector is at distance at least 0.6 — in particular on the
empty enrolled set. -/
theorem matcher_decision (p : List Rat) (l : List StudentDescriptor)
    (hlen : ∀ s ∈ l, s.faceData.length = p.length) :
    (∀ s d2, matcherRun p l = some (s, d2) →
      s ∈ l ∧ d2 = d2q p s.faceData ∧
      Real.sqrt (d2q p s.faceData : Rat) < 3 / 5 ∧
      ∀ t ∈ l, Real.sqrt ((d2q p s.faceData : Rat) : ℝ) ≤
        Real.sqrt ((d2q p t.faceData : Rat) : ℝ)) ∧
    (matcherRun p l = none ↔
      ∀ t ∈ l, (3 : ℝ) / 5 ≤ Real.sqrt ((d2q p t.faceData : Rat) : ℝ)) ∧
    (l = [] → matcherRun p l = none) := by
  have hlen2 : ∀ s ∈ l, p.length ≤ s.faceData.length := fun s hs =>
    le_of_eq (hlen s hs).symm
  obtain ⟨h1, h2, h3⟩ := matcherFold_spec p l (none, 9 / 25) hlen2
  have hsq : ((3 : ℝ) / 5) ^ 2 = (((9 : Rat) / 25 : Rat) : ℝ) := by norm_num
  have hq : ∀ t : StudentDescriptor, (9 : Rat) / 25 ≤ d2q p t.faceData ↔
      (3 : ℝ) / 5 ≤ Real.sqrt ((d2q p t.faceData : Rat) : ℝ) := by
    intro t
    rw [Real.le_sqrt' (by norm_num : (0 : ℝ) < 3 / 5), hsq]
    exact Rat.cast_le.symm
  refine ⟨?_, ⟨?_, ?_⟩, ?_⟩
  · intro s d2 hrun
    rcases h3 with h3 | ⟨s1, hmem, hfst, hsnd, hlt⟩
    · rw [matcherRun_fst_none p l (by rw [h3])] at hrun
      exact absurd hrun (by simp)
    · rw [matcherRun_fst_some p l s1 hfst] at hrun
      simp only [Option.some.injEq, Prod.mk.injEq] at hrun
      obtain ⟨hs1, hd2⟩ := hrun
      subst hs1
      have hdval : d2q p s1.faceData < 9 / 25 := hsnd ▸ hlt
      refine ⟨hmem, by rw [← hd2, hsnd], ?_, ?_⟩
      · rw [Real.sqrt_lt' (by norm_num : (0 : ℝ) < 3 / 5), hsq]
        exact Rat.cast_lt.mpr hdval
      · intro t ht
        have hle : d2q p s1.faceData ≤ d2q p t.faceData := hsnd ▸ h2 t ht
        exact Real.sqrt_le_sqrt (by exact_mod_cast hle)
  · intro hnone t ht
    rcases h3 with h3 | ⟨s1, _, hfst, _, _⟩
    · have h925 : (9 : Rat) / 25 ≤ d2q p t.faceData := by
        have := h2 t ht
        rw [h3] at this
        exact this
      exact (hq t).mp h925
    · rw [matcherRun_fst_some p l s1 hfst] at hnone
      exact absurd hnone (by simp)
  · intro hall
    rcases h3 with h3 | ⟨s1, hmem, hfst, hsnd, hlt⟩
    · exact matcherRun_fst_none p l (by rw [h3])
    · have h925 : (9 : Rat) / 25 ≤ d2q p s1.faceData := (hq s1).mpr (hall s1 hmem)
      exact absurd (hsnd ▸ hlt) (not_lt.mpr h925)
  · intro h
    subst h
    rfl

/-- Concrete probe for the matcher witness. -/
def probeW : List Rat := [0, 0]

/-- Concrete enrolled descriptors for the matcher witness. -/
def descsW : List StudentDescriptor :=
  [{ id := "S1", name := "Ann", course := "Math", faceData := [0, 0] },
   { id := "S2", name := "Bob", course := "Math", faceData := [1, 1] }]

/-- Witness for `matcher_decision` on a concrete probe and enrolled set. -/
theorem matcher_decision_witness :
    (∀ s ∈ descsW, s.faceData.length = probeW.length) ∧
    ((∀ s d2, matcherRun probeW descsW = some (s, d2) →
        s ∈ descsW ∧ d2 = d2q probeW s.faceData ∧
        Real.sqrt (d2q probeW s.faceData : Rat) < 3 / 5 ∧
        ∀ t ∈ descsW, Real.sqrt ((d2q probeW s.faceData : Rat) : ℝ) ≤
          Real.sqrt ((d2q probeW t.faceData : Rat) : ℝ)) ∧
     (matcherRun probeW descsW = none ↔
        ∀ t ∈ descsW, (3 : ℝ) / 5 ≤ Real.sqrt ((d2q probeW t.faceData : Rat) : ℝ)) ∧
     (descsW = [] → matcherRun probeW descsW = none)) :=
  ⟨by decide, matcher_decision probeW descsW (by decide)⟩

/-- Witness for `checkin_idempotent` at a concrete first and second call. -/
theorem checkin_idempotent_witness :
    (("s1" ≠ "" ∧ "Ann" ≠ "" ∧ "Math" ≠ "") ∧
     ("S1" ≠ "" ∧ "Ann" ≠ "" ∧ "Math" ≠ "") ∧
     toUpperCase "S1" = toUpperCase "s1" ∧
     countPair [] (toUpperCase "s1") "10/12/2026" = 0) ∧
    (checkin [] "10/12/2026" ⟨"s1", "Ann", "Math", some 90⟩ =
      (.created (mkAttendance ⟨"s1", "Ann", "Math", some 90⟩ "10/12/2026"),
        [] ++ [mkAttendance ⟨"s1", "Ann", "Math", some 90⟩ "10/12/2026"]) ∧
     (mkAttendance ⟨"s1", "Ann", "Math", some 90⟩ "10/12/2026").studentId = toUpperCase "s1" ∧
     (mkAttendance ⟨"s1", "Ann", "Math", some 90⟩ "10/12/2026").date = "10/12/2026" ∧
     countPair ([] ++ [mkAttendance ⟨"s1", "Ann", "Math", some 90⟩ "10/12/2026"])
       (toUpperCase "s1") "10/12/2026" = 1 ∧
     checkin ([] ++ [mkAttendance ⟨"s1", "Ann", "Math", some 90⟩ "10/12/2026"]) "10/12/2026"
         ⟨"S1", "Ann", "Math", some 88⟩ =
       (.alreadyCheckedIn (mkAttendance ⟨"s1", "Ann", "Math", some 90⟩ "10/12/2026"),
         [] ++ [mkAttendance ⟨"s1", "Ann", "Math", some 90⟩ "10/12/2026"]) ∧
     (∀ l2 : List AttendanceRecord,
       (∃ r ∈ l2, r.studentId = toUpperCase "s1" ∧ r.date = "10/12/2026") →
       ∃ r2, checkin l2 "10/12/2026" ⟨"S1", "Ann", "Math", some 88⟩ =
         (.alreadyCheckedIn r2, l2) ∧ r2 ∈ l2 ∧
         r2.studentId = toUpperCase "s1" ∧ r2.date = "10/12/2026")) :=
  ⟨⟨by decide, by decide, by decide, by decide⟩,
    checkin_idempotent [] "10/12/2026" ⟨"s1", "Ann", "Math", some 90⟩
      ⟨"S1", "Ann", "Math", some 88⟩ (by decide) (by decide) (by decide) (by decide)⟩

/-- C10: the check-in endpoint never verifies the identity against the
student directory: whatever the directory holds — in particular when the
uppercased id belongs to no student or only to a soft-deleted one — a
request with non-empty fields and no existing record for the pair is
persisted with a 201 created response; and the handler's result type has
no not-found case at all. -/
theorem checkin_ignores_directory (students : List Student)
    (ledger : List AttendanceRecord) (today : String) (req : CheckinReq)
    (hfields : req.studentId ≠ "" ∧ req.name ≠ "" ∧ req.course ≠ "")
    (h0 : countPair ledger (toUpperCase req.studentId) today = 0)
    (_hunknown : ∀ s ∈ students,
      s.studentId ≠ toUpperCase req.studentId ∨ s.isActive = false) :
    checkin ledger today req =
      (.created (mkAttendance req today), ledger ++ [mkAttendance req today]) ∧
    (∀ res : CheckinResult, res = .badRequest ∨
      (∃ r, res = .alreadyCheckedIn r) ∨ (∃ r, res = .created r)) := by
  have hif : ¬(req.studentId = "" ∨ req.name = "" ∨ req.course = "") := by
    simp [hfields.1, hfields.2.1, hfields.2.2]
  have hfind := find?_pair_eq_none ledger (toUpperCase req.studentId) today h0
  refine ⟨by simp [checkin, hif, hfind], ?_⟩
  intro res
  cases res with
  | badRequest => exact Or.inl rfl
  | alreadyCheckedIn r => exact Or.inr (Or.inl ⟨r, rfl⟩)
  | created r => exact Or.inr (Or.inr ⟨r, rfl⟩)

/-- A soft-deleted student for the unknown-identity check-in witness. -/
def ghostStudent : Student :=
  { studentId := "S9", name := "Bob", course := "Math",
    faceDescriptor := List.replicate 128 0, isActive := false }

/-- Witness for `checkin_ignores_directory`: the directory holds only a
soft-deleted student with the same id, and the check-in still succeeds. -/
theorem checkin_ignores_directory_witness :
    (((("s9" : String) ≠ "" ∧ ("Bob" : String) ≠ "" ∧ ("Math" : String) ≠ "")) ∧
     countPair [] (toUpperCase "s9") "10/12/2026" = 0 ∧
     (∀ s ∈ [ghostStudent],
       s.studentId ≠ toUpperCase "s9" ∨ s.isActive = false)) ∧
    (checkin [] "10/12/2026" ⟨"s9", "Bob", "Math", some 95⟩ =
      (.created (mkAttendance ⟨"s9", "Bob", "Math", some 95⟩ "10/12/2026"),
        [] ++ [mkAttendance ⟨"s9", "Bob", "Math", some 95⟩ "10/12/2026"]) ∧
     (∀ res : CheckinResult, res = .badRequest ∨
       (∃ r, res = .alreadyCheckedIn r) ∨ (∃ r, res = .created r))) :=
  ⟨⟨by decide, by decide, by decide⟩,
    checkin_ignores_directory [ghostStudent] [] "10/12/2026"
      ⟨"s9", "Bob", "Math", some 95⟩ (by decide) (by decide) (by decide)⟩

/-- The soft-deleted student the registration counterexample stores. -/
def inactiveS1 : Student :=
  { studentId := "S1", name := "Ann", course := "Math",
    faceDescriptor := List.replicate 128 0, isActive := false }

/-- An active student with the same key, for the amended-claim witness. -/
def activeS1 : Student :=
  { studentId := "S1", name := "Ann", course := "Math",
    faceDescriptor := List.replicate 128 0, isActive := true }

/-- A well-formed registration request colliding with `S1` up to case. -/
def reqS1 : RegisterReq :=
  { studentId := "s1", name := "Bea", course := "Chem",
    faceDescriptor := some (List.replicate 128 0) }

set_option maxRecDepth 8192 in
/-- C5 counterexample: a store holding only a soft-deleted (inactive)
student with the same identity key still blocks a new registration with a
conflict — refuting the part of the claim that only a currently active
registration blocks the new one: the duplicate lookup has no isActive
filter. -/
theorem register_blocked_by_inactive :
    register [inactiveS1] reqS1 = (.conflict, [inactiveS1]) ∧
    inactiveS1.isActive = false := by
  exact ⟨by decide, rfl⟩

/-- C5 amended: any stored student whose id equals the uppercased requested
id — active or soft-deleted — makes a well-formed registration return a
conflict with the store unchanged, so the student count does not
increase; the comparison is case-insensitive through uppercasing. -/
theorem register_conflict_of_existing (store : List Student) (req : RegisterReq)
    (fd : List Rat)
    (hfields : req.studentId ≠ "" ∧ req.name ≠ "" ∧ req.course ≠ "")
    (hfd : req.faceDescriptor = some fd) (hlen : fd.length = 128)
    (hdup : ∃ s ∈ store, s.studentId = toUpperCase req.studentId) :
    register store req = (.conflict, store) := by
  have hif : ¬(req.studentId = "" ∨ req.name = "" ∨ req.course = "" ∨
      req.faceDescriptor = none) := by
    simp [hfields.1, hfields.2.1, hfields.2.2, hfd]
  cases hfind : store.find? (fun s => s.studentId == toUpperCase req.studentId) with
  | none =>
    obtain ⟨s, hs, hsid⟩ := hdup
    have := List.find?_eq_none.mp hfind s hs
    simp [hsid] at this
  | some s =>
    simp [register, hif, hfd, hlen, hfind]
    exact ⟨hfields.1, hfields.2.1, hfields.2.2⟩

set_option maxRecDepth 8192 in
/-- Witness for `register_conflict_of_existing` with an active duplicate:
the second registration of `S1` gets a conflict and the store stays. -/
theorem register_conflict_of_existing_witness :
    ((reqS1.studentId ≠ "" ∧ reqS1.name ≠ "" ∧ reqS1.course ≠ "") ∧
     reqS1.faceDescriptor = some (List.replicate 128 0) ∧
     (List.replicate 128 (0 : Rat)).length = 128 ∧
     (∃ s ∈ [activeS1], s.studentId = toUpperCase reqS1.studentId)) ∧
    register [activeS1] reqS1 = (.conflict, [activeS1]) :=
  ⟨⟨by decide, rfl, by decide, by decide⟩,
    register_conflict_of_existing [activeS1] reqS1 (List.replicate 128 0)
      (by decide) rfl (by decide) (by decide)⟩

/-- C9: a registration whose descriptor is present but does not have
exactly 128 entries is rejected with a 400 and the student store is
unchanged, regardless of the other fields. -/
theorem register_rejects_bad_length (store : List Student) (req : RegisterReq)
    (fd : List Rat) (hfd : req.faceDescriptor = some fd)
    (hlen : fd.length ≠ 128) :
    register store req = (.badRequest, store) := by
  by_cases hempty : req.studentId = "" ∨ req.name = "" ∨ req.course = ""
  · rcases hempty with h | h | h <;> simp [register, h]
  · push_neg at hempty
    have hif : ¬(req.studentId = "" ∨ req.name = "" ∨ req.course = "" ∨
        req.faceDescriptor = none) := by
      simp [hempty.1, hempty.2.1, hempty.2.2, hfd]
    simp [register, hif, hfd, hlen]

/-- A registration request with a 127-entry descriptor. -/
def req127 : RegisterReq :=
  { studentId := "S1", name := "Ann", course := "Math",
    faceDescriptor := some (List.replicate 127 0) }

set_option maxRecDepth 8192 in
/-- Witness for `register_rejects_bad_length` at a 127-length vector. -/
theorem register_rejects_bad_length_witness :
    (req127.faceDescriptor = some (List.replicate 127 0) ∧
     (List.replicate 127 (0 : Rat)).length ≠ 128) ∧
    register [] req127 = (.badRequest, []) :=
  ⟨⟨rfl, by decide⟩,
    register_rejects_bad_length [] req127 (List.replicate 127 0) rfl (by decide)⟩

/-- First attendance document for the storage counterexample. -/
def dupRec1 : AttendanceRecord :=
  { studentId := "S1", name := "Ann", course := "Math",
    date := "10/12/2026", confidence := none }

/-- A second document with the same (studentId, date) pair. -/
def dupRec2 : AttendanceRecord :=
  { studentId := "S1", name := "Ann", course := "Math",
    date := "10/12/2026", confidence := some 90 }

/-- C3 counterexample: with the indexes the schema actually declares — only
the non-unique `{ studentId: 1, date: 1 }` index — a second insert of the
same (studentId, date) pair succeeds at the storage layer instead of
failing with a constraint-violation error, leaving the pair count at 2. -/
theorem attendance_insert_dup_succeeds :
    storageInsert attendanceIndexes [dupRec1] dupRec2 = .ok [dupRec1, dupRec2] ∧
    dupRec1.studentId = dupRec2.studentId ∧ dupRec1.date = dupRec2.date ∧
    countPair [dupRec1, dupRec2] "S1" "10/12/2026" = 2 :=
  ⟨rfl, rfl, rfl, rfl⟩

/-- C3 amended: the schema declares no unique index on the attendance
collection (the (studentId, date) index is for query performance only), so
the storage layer accepts every insert; uniqueness of the pair rests solely
on the application-level check in the check-in handler, and a racing second
insert would produce a duplicate record. -/
theorem attendance_index_not_unique (docs : List AttendanceRecord)
    (d : AttendanceRecord) :
    (∀ ix ∈ attendanceIndexes, ix.unique = false) ∧
    storageInsert attendanceIndexes docs d = .ok (docs ++ [d]) := by
  constructor
  · intro ix hix
    simp only [attendanceIndexes, List.mem_singleton] at hix
    rw [hix]
  · simp [storageInsert, attendanceIndexes]

lemma sumAt_fold (i : Nat) (samples : List (List Rat)) :
    ∀ a : Rat, (∀ s ∈ samples, i < s.length) →
    samples.foldl (fun acc s => acc.bind fun x => (s.get? i).map fun v => x + v)
        (some a) =
      some (a + (samples.map (fun s => s.getD i 0)).sum) := by
  induction samples with
  | nil => intro a _; simp
  | cons s rest ih =>
    intro a h
    have hs : i < s.length := h s (by simp)
    cases hsome : s.get? i with
    | none =>
      have := List.get?_eq_none.mp hsome
      omega
    | some v =>
      have hgd : s.getD i 0 = v := by
        rw [show s.getD i 0 = (s.get? i).getD 0 from rfl, hsome]
        rfl
      have hrest : ∀ t ∈ rest, i < t.length := fun t ht => h t (by simp [ht])
      rw [List.foldl_cons]
      rw [show ((some a).bind fun x => (s.get? i).map fun v => x + v) = some (a + v) by
        rw [hsome]; rfl]
      rw [ih (a + v) hrest, List.map_cons, List.sum_cons, hgd, add_assoc]

/-- `sumAt` on samples that all reach index `i` is the plain sum of the
`i`-th components. -/
lemma sumAt_eq (samples : List (List Rat)) (i : Nat)
    (h : ∀ s ∈ samples, i < s.length) :
    sumAt samples i = some ((samples.map (fun s => s.getD i 0)).sum) := by
  unfold sumAt
  rw [sumAt_fold i samples 0 h, zero_add]

/-- C4: Descriptor Aggregator correctness. Given at least 3 samples, all of
length `L`, the averaged descriptor has length `L` and its `i`-th component
is the arithmetic mean of the `i`-th components of the samples; the
function is pure, so there are no side effects to speak of. -/
theorem avgDescriptor_mean (samples : List (List Rat)) (L : Nat)
    (hK : 3 ≤ samples.length) (hlen : ∀ s ∈ samples, s.length = L) :
    (avgDescriptor samples).length = L ∧
    ∀ i, i < L → (avgDescriptor samples)[i]? =
      some (some ((samples.map (fun s => s.getD i 0)).sum /
        (samples.length : Rat))) := by
  have hhead : (samples.headD []).length = L := by
    cases samples with
    | nil => simp at hK
    | cons s rest => exact hlen s (by simp)
  constructor
  · simp only [avgDescriptor, List.length_map, List.length_range]
    exact hhead
  · intro i hi
    have hil : ∀ s ∈ samples, i < s.length := fun s hs => by
      rw [hlen s hs]; exact hi
    unfold avgDescriptor
    rw [List.getElem?_map, List.getElem?_range (by rw [hhead]; exact hi)]
    simp [sumAt_eq samples i hil]

/-- Concrete samples for the aggregator witness. -/
def samplesW : List (List Rat) := [[1, 2], [3, 4], [5, 6]]

/-- Witness for `avgDescriptor_mean` on three concrete samples of length 2. -/
theorem avgDescriptor_mean_witness :
    (3 ≤ samplesW.length ∧ ∀ s ∈ samplesW, s.length = 2) ∧
    ((avgDescriptor samplesW).length = 2 ∧
     ∀ i, i < 2 → (avgDescriptor samplesW)[i]? =
       some (some ((samplesW.map (fun s => s.getD i 0)).sum /
         (samplesW.length : Rat)))) :=
  ⟨⟨by decide, by decide⟩, avgDescriptor_mean samplesW 2 (by decide) (by decide)⟩

/-- C8 counterexample: three captured samples of unequal lengths (1, 2, 1)
pass the only client-side check (at least 3 samples), so the handler
submits the averaged descriptor instead of failing validation. -/
theorem registerClick_mismatched_submits :
    registerClick "S1" "Ann" "Math" [[1], [2, 3], [4]] =
      .submitted [some (7 / 3)] ∧
    (([2, 3] : List Rat)).length ≠ (([1] : List Rat)).length := by
  refine ⟨?_, by decide⟩
  rw [registerClick, if_neg (by decide), if_neg (by decide)]
  norm_num [avgDescriptor, sumAt, show List.range 1 = [0] from rfl]

/-- C8 amended: with nonempty form fields, the register click handler fails
(and submits nothing) precisely when fewer than 3 samples were captured;
with 3 or more samples it submits the averaged descriptor regardless of the
samples' lengths (missing components become NaN). -/
theorem registerClick_only_counts_samples (id name course : String)
    (samples : List (List Rat))
    (hfields : id ≠ "" ∧ name ≠ "" ∧ course ≠ "") :
    (samples.length < 3 →
      registerClick id name course samples = .missingSamples) ∧
    (3 ≤ samples.length →
      registerClick id name course samples = .submitted (avgDescriptor samples)) := by
  have hif : ¬(id = "" ∨ name = "" ∨ course = "") := by
    simp [hfields.1, hfields.2.1, hfields.2.2]
  constructor
  · intro h
    simp [registerClick, hif, h]
  · intro h
    simp [registerClick, hif, show ¬(samples.length < 3) from not_lt.mpr h]

/-- Witness for `registerClick_only_counts_samples` with three samples. -/
theorem registerClick_only_counts_samples_witness :
    (("S1" ≠ "" ∧ "Ann" ≠ "" ∧ "Math" ≠ "") : Prop) ∧
    ((([[1], [2], [3]] : List (List Rat)).length < 3 →
      registerClick "S1" "Ann" "Math" [[1], [2], [3]] = .missingSamples) ∧
     (3 ≤ ([[1], [2], [3]] : List (List Rat)).length →
      registerClick "S1" "Ann" "Math" [[1], [2], [3]] =
        .submitted (avgDescriptor [[1], [2], [3]]))) :=
  ⟨by decide, registerClick_only_counts_samples "S1" "Ann" "Math"
    [[1], [2], [3]] (by decide)⟩

/-- The enrolled descriptor at exact distance 1/3 from the zero probe. -/
def thirdS : StudentDescriptor :=
  { id := "S1", name := "Ann", course := "Math", faceData := [1 / 3] }

/-- C6 counterexample: at the concrete match below the minimum distance is
sqrt(1/9) = 1/3, and the reported confidence — toFixed(1) of
(1 - 1/3) * 100 — is 66.7, which is not equal to (1 - 1/3) * 100 = 200/3:
the rounding in toFixed(1) breaks exact equality. -/
theorem confidence_not_exact :
    matcherRun [0] [thirdS] = some (thirdS, 1 / 9) ∧
    Real.sqrt (((1 : Rat) / 9 : Rat) : ℝ) = 1 / 3 ∧
    confidence (1 / 3) = 667 / 10 ∧
    confidence (1 / 3) ≠ (1 - 1 / 3) * 100 := by
  refine ⟨?_, ?_, ?_, ?_⟩
  · norm_num [matcherRun, matcherStep, euclidean2, thirdS]
  · rw [show (((1 : Rat) / 9 : Rat) : ℝ) = ((1 : ℝ) / 3) ^ 2 by push_cast; norm_num]
    exact Real.sqrt_sq (by norm_num)
  · norm_num [confidence, toFixed1]
  · norm_num [confidence, toFixed1]

/-- C6 amended: the confidence the client reports is (1 - d) * 100 rounded
to one decimal place: it equals 100 exactly at distance 0, and for every
distance it is within 1/20 of (1 - d) * 100. -/
theorem confidence_rounded (d : Rat) :
    confidence 0 = 100 ∧ |confidence d - (1 - d) * 100| ≤ 1 / 20 := by
  constructor
  · norm_num [confidence, toFixed1]
  · unfold confidence toFixed1
    set x : Rat := (1 - d) * 100 with hx
    have h1 : ((⌊x * 10 + 1 / 2⌋ : Int) : Rat) ≤ x * 10 + 1 / 2 :=
      Int.floor_le _
    have h2 : x * 10 + 1 / 2 < (⌊x * 10 + 1 / 2⌋ : Int) + 1 :=
      Int.lt_floor_add_one _
    rw [abs_le]
    constructor
    · linarith
    · linarith

/-- The enrolled descriptor, longer than the probe, for the C7 refutation. -/
def longS : StudentDescriptor :=
  { id := "S1", name := "Ann", course := "Math", faceData := [0, 5] }

/-- C7 counterexample: a probe of length 1 against an enrolled vector of
length 2 — the matcher compares only the probe's single index, finds
distance 0 and reports a full match instead of failing with a
ValidationError (the verify path has no error outcome at all). -/
theorem matcher_length_mismatch_matches :
    ([0] : List Rat).length ≠ longS.faceData.length ∧
    matcherRun [0] [longS] = some (longS, 0) := by
  refine ⟨by decide, ?_⟩
  norm_num [matcherRun, matcherStep, euclidean2, longS]

/-- C7 amended: the matcher never validates vector lengths: when the probe
is strictly longer than an enrolled vector the distance is NaN and the fold
skips that vector (the state is unchanged); when the probe is no longer
than the enrolled vector the distance is computed over the probe's indices
alone; no error is ever raised. -/
theorem matcher_no_length_validation (p : List Rat) (s : StudentDescriptor)
    (st : Option StudentDescriptor × Rat)
    (h : s.faceData.length < p.length) :
    euclidean2 p s.faceData = none ∧ matcherStep p st s = st := by
  refine ⟨euclidean2_eq_none p s.faceData h, ?_⟩
  simp [matcherStep, euclidean2_eq_none p s.faceData h]

/-- The short enrolled descriptor the C7 amended witness skips. -/
def shortS : StudentDescriptor :=
  { id := "S1", name := "Ann", course := "Math", faceData := [0] }

/-- Witness for `matcher_no_length_validation`: a probe of length 2 against
an enrolled vector of length 1 is skipped with a NaN distance. -/
theorem matcher_no_length_validation_witness :
    (shortS.faceData.length < ([0, 0] : List Rat).length) ∧
    (euclidean2 [0, 0] shortS.faceData = none ∧
     matcherStep [0, 0] (none, 9 / 25) shortS = (none, 9 / 25)) :=
  ⟨by decide,
    matcher_no_length_validation [0, 0] shortS (none, 9 / 25) (by decide)⟩
